import Mathlib

/-!
# Verification of `lab_2/random_generators/cpp_generator.cpp`

The program seeds a `mt19937_64` from one read of `random_device`, draws two
`unsigned long long` values through a `uniform_int_distribution`, renders each
with `std::bitset<64>::to_string()` and prints the 128-character concatenation.

Layout of this development:

* the standard-library pieces the program calls (`bitset<64>`, and the
  random facilities as a record of operations, with the Mersenne twister of
  the C++ standard as the concrete instance);
* `generateUniqueBinarySequence` and `main`, written as explicit state passing;
* lemmas on the rendering, then one theorem per specification claim.

Machine integers are natural numbers with explicit reduction modulo `2 ^ 32`
(`unsigned int`) or `2 ^ 64` (`unsigned long long`).
-/

namespace CppGenerator

/-! ## `std::bitset<64>` -/

/-- Characters of `std::bitset<n>::to_string()` for the stored word `w`.
The C++ standard fixes the layout: character position `n - 1` corresponds to
bit position zero, and decreasing character positions correspond to increasing
bit positions; a zero bit becomes `'0'` and a one bit becomes `'1'`. -/
def bitsetChars : Nat → Nat → List Char
  | 0, _ => []
  | n + 1, w => bitsetChars n (w / 2) ++ [if w % 2 = 1 then '1' else '0']

/-- The expression `std::bitset<64>(val).to_string()`: the constructor keeps
the low 64 bits of `val`, and `to_string` yields 64 characters. -/
def bitset64_to_string (val : Nat) : String :=
  String.mk (bitsetChars 64 (val % 2 ^ 64))

/-! ## Random-number facilities of `<random>` -/

/-- The three `<random>` operations the program performs, over an abstract
state `Device` of the system entropy source and an abstract state `Engine`
of the pseudo-random engine.

* `device s` is the call `device()` on a `random_device` backed by entropy
  state `s`: the value read and the entropy state afterwards;
* `generator seed` is the construction `mt19937_64 generator(seed)`;
* `distribution g` is the call `distribution(generator)` with engine state
  `g`: the value produced and the engine state afterwards. -/
structure StdRandom (Device Engine : Type) where
  device : Device → Nat × Device
  generator : Nat → Engine
  distribution : Engine → Nat × Engine

namespace mt19937_64

/-- Seeding recurrence of `mersenne_twister_engine` with the `mt19937_64`
parameters (`w = 64`, `f = 6364136223846793005`): the words
`X[i] = (f * (X[i-1] xor (X[i-1] rshift (w - 2))) + i) mod 2^w`, for `k`
consecutive indices starting at `i`, given `prev = X[i-1]`. -/
def seedFill : Nat → Nat → Nat → List Nat
  | 0, _, _ => []
  | k + 1, i, prev =>
    let x := (6364136223846793005 * (prev ^^^ (prev >>> 62)) + i) % 2 ^ 64
    x :: seedFill k (i + 1) x

/-- State after `mt19937_64 generator(value)`: the `n = 312` words
`X[-312], ..., X[-1]`, oldest first. -/
def seed (value : Nat) : List Nat :=
  let x0 := value % 2 ^ 64
  x0 :: seedFill 311 1 x0

/-- Tempering of `mt19937_64` (`u = 29`, `d = 0x5555555555555555`, `s = 17`,
`b = 0x71d67fffeda60000`, `t = 37`, `c = 0xfff7eee000000000`, `l = 43`). -/
def temper (x : Nat) : Nat :=
  let z1 := x ^^^ ((x >>> 29) &&& 0x5555555555555555)
  let z2 := z1 ^^^ (((z1 <<< 17) % 2 ^ 64) &&& 0x71d67fffeda60000)
  let z3 := z2 ^^^ (((z2 <<< 37) % 2 ^ 64) &&& 0xfff7eee000000000)
  z3 ^^^ (z3 >>> 43)

/-- One call `generator()`: the transition of `mersenne_twister_engine`
(`n = 312`, `m = 156`, `r = 31`, `a = 0xb5026f5aa96619e9`) on the window of
the last 312 words, and the tempered output. -/
def next (st : List Nat) : Nat × List Nat :=
  let y := (st.getD 0 0 &&& 0xFFFFFFFF80000000) ||| (st.getD 1 0 &&& 0x7FFFFFFF)
  let alpha := if y % 2 = 1 then 0xb5026f5aa96619e9 else 0
  let x := st.getD 156 0 ^^^ (y >>> 1) ^^^ alpha
  (temper x, st.drop 1 ++ [x])

end mt19937_64

/-- The system entropy source as an endless sequence of words still to be
handed out. -/
abbrev EntropyStream : Type := Nat → Nat

/-- The facilities as the program gets them from libstdc++: `device()`
hands out the next word of the entropy stream, the engine is the
`mt19937_64` of the standard, and a default-constructed
`uniform_int_distribution<unsigned long long>` covers the whole range of the
engine, so that one call returns one engine output unchanged. -/
def stdlib : StdRandom EntropyStream (List Nat) where
  device := fun e => (e 0, fun n => e (n + 1))
  generator := mt19937_64.seed
  distribution := mt19937_64.next

/-- A test double in the sense of section 9 of the specification: whatever
the seed, the engine hands out the listed values in order (and `0` once the
list is used up). -/
def scripted (values : List Nat) : StdRandom Unit (List Nat) where
  device := fun u => (0, u)
  generator := fun _ => values
  distribution := fun g => (g.headD 0, g.tail)

/-! ## The program -/

/-- Body of the loop `for (int i = 0; i < 2; ++i)`, on the pair of the engine
state and the string built so far:
`unsigned long long randomNumber = distribution(generator);`
`binarySequence += std::bitset<64>(randomNumber).to_string();` -/
def loopBody {Device Engine : Type} (R : StdRandom Device Engine)
    (st : Engine × String) : Engine × String :=
  let drawn := R.distribution st.1
  let randomNumber := drawn.1 % 2 ^ 64
  (drawn.2, st.2 ++ bitset64_to_string randomNumber)

/-- The function `generateUniqueBinarySequence`, run against entropy state
`entropy`: the returned string and the entropy state afterwards.
`device()` has type `unsigned int` (32 bits); `binarySequence` starts empty
(`reserve(128)` changes no content); the loop body runs for `i = 0, 1`. -/
def generateUniqueBinarySequence {Device Engine : Type} (R : StdRandom Device Engine)
    (entropy : Device) : String × Device :=
  let read := R.device entropy
  let generator := R.generator (read.1 % 2 ^ 32)
  let binarySequence := ""
  let final := (List.range 2).foldl (fun st _ => loopBody R st) (generator, binarySequence)
  (final.2, read.2)

/-- What a run of the process leaves behind: the text written to standard
output and the exit code. -/
structure ProcessResult where
  stdout : String
  exitCode : Int

/-- The function `main`:
`cout << "Unique binary sequence: " << uniqueBinarySequence << endl; return 0;` -/
def main {Device Engine : Type} (R : StdRandom Device Engine)
    (entropy : Device) : ProcessResult × Device :=
  let call := generateUniqueBinarySequence R entropy
  let uniqueBinarySequence := call.1
  ({ stdout := "Unique binary sequence: " ++ uniqueBinarySequence ++ "\n", exitCode := 0 },
    call.2)

/-! ## Observations on a run -/

/-- Value of `randomNumber` in the iteration `i = 0`. -/
def firstDraw {Device Engine : Type} (R : StdRandom Device Engine) (entropy : Device) : Nat :=
  (R.distribution (R.generator ((R.device entropy).1 % 2 ^ 32))).1 % 2 ^ 64

/-- Value of `randomNumber` in the iteration `i = 1`. -/
def secondDraw {Device Engine : Type} (R : StdRandom Device Engine) (entropy : Device) : Nat :=
  (R.distribution (R.distribution (R.generator ((R.device entropy).1 % 2 ^ 32))).2).1 % 2 ^ 64

/-- The run of `generateUniqueBinarySequence` against `entropy` draws `a` and
then `b`. -/
def Draws {Device Engine : Type} (R : StdRandom Device Engine) (entropy : Device)
    (a b : Nat) : Prop :=
  firstDraw R entropy = a ∧ secondDraw R entropy = b

instance {Device Engine : Type} (R : StdRandom Device Engine) (entropy : Device)
    (a b : Nat) : Decidable (Draws R entropy a b) := by
  unfold Draws
  infer_instance

/-! ## Reading a binary numeral (specification side) -/

/-- Value of one binary digit character, if it is one. -/
def binaryDigit (c : Char) : Option Nat :=
  if c = '0' then some 0 else if c = '1' then some 1 else none

/-- Positional reading of a base-2 numeral, most significant digit first;
`none` when a character is not a binary digit. This is the reading the
specification refers to, defined independently of the rendering. -/
def readBinary (cs : List Char) : Option Nat :=
  cs.foldl (fun acc c => acc.bind fun n => (binaryDigit c).map fun d => 2 * n + d) (some 0)


/-! ## Lemmas on the rendering -/

theorem bitsetChars_length (n w : Nat) : (bitsetChars n w).length = n := by
  induction n generalizing w with
  | zero => rfl
  | succ n ih => simp [bitsetChars, ih]

theorem bitsetChars_binary (n w : Nat) : ∀ c ∈ bitsetChars n w, c = '0' ∨ c = '1' := by
  induction n generalizing w with
  | zero => intro c hc; simp [bitsetChars] at hc
  | succ n ih =>
    intro c hc
    simp only [bitsetChars, List.mem_append, List.mem_singleton] at hc
    rcases hc with hc | hc
    · exact ih _ c hc
    · subst hc
      split <;> simp

theorem bitsetChars_getElem? (n w i : Nat) (hi : i < n) :
    (bitsetChars n w)[i]? = some (if w / 2 ^ (n - 1 - i) % 2 = 1 then '1' else '0') := by
  induction n generalizing w with
  | zero => omega
  | succ n ih =>
    simp only [bitsetChars]
    by_cases h : i < n
    · rw [List.getElem?_append_left (by rw [bitsetChars_length]; exact h), ih _ h]
      have e : n + 1 - 1 - i = (n - 1 - i) + 1 := by omega
      rw [e, Nat.pow_succ, Nat.mul_comm, Nat.div_div_eq_div_mul]
    · have e : i = n := by omega
      subst e
      rw [List.getElem?_append_right (by rw [bitsetChars_length])]
      simp [bitsetChars_length]

theorem readBinary_concat (cs : List Char) (c : Char) :
    readBinary (cs ++ [c]) =
      (readBinary cs).bind fun n => (binaryDigit c).map fun d => 2 * n + d := by
  simp [readBinary, List.foldl_append]

theorem readBinary_bitsetChars (n w : Nat) :
    readBinary (bitsetChars n w) = some (w % 2 ^ n) := by
  induction n generalizing w with
  | zero => simp [bitsetChars, readBinary, Nat.mod_one]
  | succ n ih =>
    rw [bitsetChars, readBinary_concat, ih]
    have key : 2 * (w / 2 % 2 ^ n) + w % 2 = w % 2 ^ (n + 1) := by
      rw [Nat.pow_succ, Nat.mul_comm (2 ^ n) 2, Nat.mod_mul]
      omega
    rcases Nat.mod_two_eq_zero_or_one w with h | h
    · simp [h, binaryDigit, ← key]
    · simp [h, binaryDigit, ← key]

theorem bitsetChars_surjective (n : Nat) (cs : List Char) (hlen : cs.length = n)
    (hbin : ∀ c ∈ cs, c = '0' ∨ c = '1') : ∃ w, w < 2 ^ n ∧ bitsetChars n w = cs := by
  induction n generalizing cs with
  | zero =>
    refine ⟨0, by simp, ?_⟩
    simp [bitsetChars, List.length_eq_zero.mp hlen]
  | succ n ih =>
    rcases List.eq_nil_or_concat cs with h | ⟨init, last, h⟩
    · subst h; simp at hlen
    · subst h
      have hl : init.length = n := by simpa using hlen
      obtain ⟨w, hw, hr⟩ := ih init hl (fun c hc => hbin c (by simp [hc]))
      have hlast := hbin last (by simp)
      rcases hlast with h0 | h1
      · refine ⟨2 * w, by rw [Nat.pow_succ]; omega, ?_⟩
        simp [bitsetChars, hr, h0]
      · refine ⟨2 * w + 1, by rw [Nat.pow_succ]; omega, ?_⟩
        have e1 : (2 * w + 1) / 2 = w := by omega
        have e2 : (2 * w + 1) % 2 = 1 := by omega
        simp [bitsetChars, hr, h1, e1, e2]


/-! ## Lemmas on the program -/

theorem firstDraw_lt {Device Engine : Type} (R : StdRandom Device Engine) (entropy : Device) :
    firstDraw R entropy < 2 ^ 64 :=
  Nat.mod_lt _ (by norm_num)

theorem secondDraw_lt {Device Engine : Type} (R : StdRandom Device Engine) (entropy : Device) :
    secondDraw R entropy < 2 ^ 64 :=
  Nat.mod_lt _ (by norm_num)

theorem generate_eq_append {Device Engine : Type} (R : StdRandom Device Engine)
    (entropy : Device) :
    (generateUniqueBinarySequence R entropy).1 =
      bitset64_to_string (firstDraw R entropy) ++ bitset64_to_string (secondDraw R entropy) := by
  have h : List.range 2 = [0, 1] := by decide
  simp [generateUniqueBinarySequence, loopBody, firstDraw, secondDraw, h]

theorem generate_entropy {Device Engine : Type} (R : StdRandom Device Engine)
    (entropy : Device) :
    (generateUniqueBinarySequence R entropy).2 = (R.device entropy).2 := rfl

theorem generate_data {Device Engine : Type} (R : StdRandom Device Engine)
    (entropy : Device) :
    (generateUniqueBinarySequence R entropy).1.data =
      bitsetChars 64 (firstDraw R entropy) ++ bitsetChars 64 (secondDraw R entropy) := by
  rw [generate_eq_append, String.data_append]
  simp only [bitset64_to_string]
  rw [Nat.mod_eq_of_lt (firstDraw_lt R entropy), Nat.mod_eq_of_lt (secondDraw_lt R entropy)]

theorem generate_take {Device Engine : Type} (R : StdRandom Device Engine)
    (entropy : Device) :
    (generateUniqueBinarySequence R entropy).1.data.take 64 =
      bitsetChars 64 (firstDraw R entropy) := by
  rw [generate_data, List.take_left' (bitsetChars_length _ _)]

theorem generate_drop {Device Engine : Type} (R : StdRandom Device Engine)
    (entropy : Device) :
    (generateUniqueBinarySequence R entropy).1.data.drop 64 =
      bitsetChars 64 (secondDraw R entropy) := by
  rw [generate_data, List.drop_left' (bitsetChars_length _ _)]

theorem generate_data_length {Device Engine : Type} (R : StdRandom Device Engine)
    (entropy : Device) :
    (generateUniqueBinarySequence R entropy).1.data.length = 128 := by
  rw [generate_data, List.length_append, bitsetChars_length, bitsetChars_length]

theorem generate_length {Device Engine : Type} (R : StdRandom Device Engine)
    (entropy : Device) :
    (generateUniqueBinarySequence R entropy).1.length = 128 :=
  generate_data_length R entropy

theorem generate_binary {Device Engine : Type} (R : StdRandom Device Engine)
    (entropy : Device) :
    ∀ c ∈ (generateUniqueBinarySequence R entropy).1.data, c = '0' ∨ c = '1' := by
  intro c hc
  rw [generate_data, List.mem_append] at hc
  rcases hc with hc | hc <;> exact bitsetChars_binary _ _ c hc

theorem generate_getElem?_first {Device Engine : Type} (R : StdRandom Device Engine)
    (entropy : Device) (i : Nat) (hi : i < 64) :
    (generateUniqueBinarySequence R entropy).1.data[i]? =
      some (if firstDraw R entropy / 2 ^ (63 - i) % 2 = 1 then '1' else '0') := by
  rw [generate_data, List.getElem?_append_left (by rw [bitsetChars_length]; exact hi),
    bitsetChars_getElem? 64 _ i hi]

theorem generate_getElem?_second {Device Engine : Type} (R : StdRandom Device Engine)
    (entropy : Device) (i : Nat) (hi : i < 64) :
    (generateUniqueBinarySequence R entropy).1.data[64 + i]? =
      some (if secondDraw R entropy / 2 ^ (63 - i) % 2 = 1 then '1' else '0') := by
  rw [generate_data, List.getElem?_append_right (by rw [bitsetChars_length]; omega),
    bitsetChars_length, Nat.add_sub_cancel_left, bitsetChars_getElem? 64 _ i hi]

theorem scripted_draws (a b : Nat) (ha : a < 2 ^ 64) (hb : b < 2 ^ 64) :
    Draws (scripted [a, b]) () a b := by
  constructor
  · show a % 2 ^ 64 = a
    exact Nat.mod_eq_of_lt ha
  · show b % 2 ^ 64 = b
    exact Nat.mod_eq_of_lt hb


/-! ## The claims -/

set_option maxRecDepth 100000

/-- C1: when the run draws `a` and then `b`, the returned string is the
64-character rendering of `a` immediately followed by the 64-character
rendering of `b`: characters 0..63 are the text of the first draw, characters
64..127 the text of the second draw, and there is nothing else. -/
theorem C1_concatenation_in_draw_order {Device Engine : Type} (R : StdRandom Device Engine)
    (entropy : Device) (a b : Nat) (h : Draws R entropy a b) :
    (generateUniqueBinarySequence R entropy).1 = bitset64_to_string a ++ bitset64_to_string b ∧
    (bitset64_to_string a).length = 64 ∧ (bitset64_to_string b).length = 64 ∧
    (generateUniqueBinarySequence R entropy).1.data.take 64 = (bitset64_to_string a).data ∧
    (generateUniqueBinarySequence R entropy).1.data.drop 64 = (bitset64_to_string b).data := by
  obtain ⟨ha, hb⟩ := h
  subst ha hb
  refine ⟨generate_eq_append R entropy, ?_, ?_, ?_, ?_⟩
  · exact bitsetChars_length _ _
  · exact bitsetChars_length _ _
  · rw [generate_take]
    simp only [bitset64_to_string, Nat.mod_eq_of_lt (firstDraw_lt R entropy)]
  · rw [generate_drop]
    simp only [bitset64_to_string, Nat.mod_eq_of_lt (secondDraw_lt R entropy)]

/-- Witness for C1: the libstdc++ facilities with entropy word 5489 draw
14514284786278117030 and then 4620546740167642908. -/
theorem C1_concatenation_in_draw_order_witness :
    Draws stdlib (fun n => 5489 + n) 14514284786278117030 4620546740167642908 ∧
    (generateUniqueBinarySequence stdlib (fun n => 5489 + n)).1 =
      bitset64_to_string 14514284786278117030 ++ bitset64_to_string 4620546740167642908 ∧
    (bitset64_to_string 14514284786278117030).length = 64 ∧
    (bitset64_to_string 4620546740167642908).length = 64 ∧
    (generateUniqueBinarySequence stdlib (fun n => 5489 + n)).1.data.take 64 =
      (bitset64_to_string 14514284786278117030).data ∧
    (generateUniqueBinarySequence stdlib (fun n => 5489 + n)).1.data.drop 64 =
      (bitset64_to_string 4620546740167642908).data :=
  ⟨by decide, C1_concatenation_in_draw_order stdlib (fun n => 5489 + n) _ _ (by decide)⟩

/-- C2: whatever the two drawn values, the returned string has length
exactly 128. -/
theorem C2_length_128 {Device Engine : Type} (R : StdRandom Device Engine)
    (entropy : Device) :
    (generateUniqueBinarySequence R entropy).1.length = 128 :=
  generate_length R entropy

/-- C3: whatever the two drawn values, every character of the returned string
is `'0'` or `'1'`. -/
theorem C3_characters_binary {Device Engine : Type} (R : StdRandom Device Engine)
    (entropy : Device) (c : Char) (hc : c ∈ (generateUniqueBinarySequence R entropy).1.data) :
    c = '0' ∨ c = '1' :=
  generate_binary R entropy c hc

/-- Witness for C3: the character `'1'` occurs in the string for entropy word
5489. -/
theorem C3_characters_binary_witness :
    '1' ∈ (generateUniqueBinarySequence stdlib (fun n => 5489 + n)).1.data ∧
    ('1' = '0' ∨ '1' = '1') :=
  ⟨by decide, C3_characters_binary stdlib (fun n => 5489 + n) '1' (by decide)⟩

/-- C4: most significant bit first. When the run draws `a` and then `b`, for
every `i < 64` character `i` of the first group is `'1'` exactly when bit
`63 - i` of `a` is set (`a / 2 ^ (63 - i)` is odd) and `'0'` otherwise, and
character `i` of the second group (position `64 + i`) is the same for `b`. -/
theorem C4_msb_first {Device Engine : Type} (R : StdRandom Device Engine)
    (entropy : Device) (a b : Nat) (h : Draws R entropy a b) (i : Nat) (hi : i < 64) :
    (generateUniqueBinarySequence R entropy).1.data[i]? =
      some (if a / 2 ^ (63 - i) % 2 = 1 then '1' else '0') ∧
    (generateUniqueBinarySequence R entropy).1.data[64 + i]? =
      some (if b / 2 ^ (63 - i) % 2 = 1 then '1' else '0') ∧
    (bitset64_to_string a).data[i]? = some (if a / 2 ^ (63 - i) % 2 = 1 then '1' else '0') ∧
    (bitset64_to_string b).data[i]? = some (if b / 2 ^ (63 - i) % 2 = 1 then '1' else '0') := by
  obtain ⟨ha, hb⟩ := h
  subst ha hb
  refine ⟨generate_getElem?_first R entropy i hi, generate_getElem?_second R entropy i hi, ?_, ?_⟩
  · simp only [bitset64_to_string, Nat.mod_eq_of_lt (firstDraw_lt R entropy)]
    exact bitsetChars_getElem? 64 _ i hi
  · simp only [bitset64_to_string, Nat.mod_eq_of_lt (secondDraw_lt R entropy)]
    exact bitsetChars_getElem? 64 _ i hi

/-- Witness for C4: character 0 (the `2 ^ 63` bit) of both groups for entropy
word 5489. -/
theorem C4_msb_first_witness :
    Draws stdlib (fun n => 5489 + n) 14514284786278117030 4620546740167642908 ∧ 0 < 64 ∧
    (generateUniqueBinarySequence stdlib (fun n => 5489 + n)).1.data[0]? =
      some (if 14514284786278117030 / 2 ^ (63 - 0) % 2 = 1 then '1' else '0') ∧
    (generateUniqueBinarySequence stdlib (fun n => 5489 + n)).1.data[64 + 0]? =
      some (if 4620546740167642908 / 2 ^ (63 - 0) % 2 = 1 then '1' else '0') ∧
    (bitset64_to_string 14514284786278117030).data[0]? =
      some (if 14514284786278117030 / 2 ^ (63 - 0) % 2 = 1 then '1' else '0') ∧
    (bitset64_to_string 4620546740167642908).data[0]? =
      some (if 4620546740167642908 / 2 ^ (63 - 0) % 2 = 1 then '1' else '0') :=
  ⟨by decide, by decide,
    C4_msb_first stdlib (fun n => 5489 + n) _ _ (by decide) 0 (by decide)⟩

/-- C5: when the run draws `a` and then `b`, both are 64-bit values, the
result splits into two halves of 64 characters, and reading the first half as
a base-2 numeral gives exactly `a`, the second half exactly `b`. -/
theorem C5_halves_read_back {Device Engine : Type} (R : StdRandom Device Engine)
    (entropy : Device) (a b : Nat) (h : Draws R entropy a b) :
    a < 2 ^ 64 ∧ b < 2 ^ 64 ∧
    ((generateUniqueBinarySequence R entropy).1.data.take 64).length = 64 ∧
    ((generateUniqueBinarySequence R entropy).1.data.drop 64).length = 64 ∧
    readBinary ((generateUniqueBinarySequence R entropy).1.data.take 64) = some a ∧
    readBinary ((generateUniqueBinarySequence R entropy).1.data.drop 64) = some b := by
  obtain ⟨ha, hb⟩ := h
  subst ha hb
  refine ⟨firstDraw_lt R entropy, secondDraw_lt R entropy, ?_, ?_, ?_, ?_⟩
  · rw [generate_take, bitsetChars_length]
  · rw [generate_drop, bitsetChars_length]
  · rw [generate_take, readBinary_bitsetChars, Nat.mod_eq_of_lt (firstDraw_lt R entropy)]
  · rw [generate_drop, readBinary_bitsetChars, Nat.mod_eq_of_lt (secondDraw_lt R entropy)]

/-- Witness for C5: the two halves for entropy word 5489 read back as the
two values drawn. -/
theorem C5_halves_read_back_witness :
    Draws stdlib (fun n => 5489 + n) 14514284786278117030 4620546740167642908 ∧
    14514284786278117030 < 2 ^ 64 ∧ 4620546740167642908 < 2 ^ 64 ∧
    ((generateUniqueBinarySequence stdlib (fun n => 5489 + n)).1.data.take 64).length = 64 ∧
    ((generateUniqueBinarySequence stdlib (fun n => 5489 + n)).1.data.drop 64).length = 64 ∧
    readBinary ((generateUniqueBinarySequence stdlib (fun n => 5489 + n)).1.data.take 64) =
      some 14514284786278117030 ∧
    readBinary ((generateUniqueBinarySequence stdlib (fun n => 5489 + n)).1.data.drop 64) =
      some 4620546740167642908 :=
  ⟨by decide, C5_halves_read_back stdlib (fun n => 5489 + n) _ _ (by decide)⟩


/-- C6: every draw contributes exactly 64 characters whatever its magnitude,
padded with leading zeros. When the run draws `a` below `2 ^ ka` and then `b`
below `2 ^ kb`, both groups have 64 characters, the first `64 - ka` characters
of the first group and the first `64 - kb` characters of the second group are
`'0'`; and when both values are 0 the result is the string of 128 `'0'`
characters, not the empty string. -/
theorem C6_leading_zero_padding {Device Engine : Type} (R : StdRandom Device Engine)
    (entropy : Device) (a b ka kb : Nat) (h : Draws R entropy a b)
    (ha : a < 2 ^ ka) (hb : b < 2 ^ kb) :
    (bitset64_to_string a).length = 64 ∧ (bitset64_to_string b).length = 64 ∧
    (∀ i, i < 64 - ka → (generateUniqueBinarySequence R entropy).1.data[i]? = some '0') ∧
    (∀ i, i < 64 - kb → (generateUniqueBinarySequence R entropy).1.data[64 + i]? = some '0') ∧
    (a = 0 → b = 0 →
      (generateUniqueBinarySequence R entropy).1 = String.mk (List.replicate 128 '0') ∧
      (generateUniqueBinarySequence R entropy).1 ≠ "") := by
  obtain ⟨hfa, hfb⟩ := h
  subst hfa hfb
  refine ⟨bitsetChars_length _ _, bitsetChars_length _ _, ?_, ?_, ?_⟩
  · intro i hi
    rw [generate_getElem?_first R entropy i (by omega)]
    have hz : firstDraw R entropy / 2 ^ (63 - i) = 0 :=
      Nat.div_eq_of_lt (lt_of_lt_of_le ha (Nat.pow_le_pow_right (by norm_num) (by omega)))
    simp [hz]
  · intro i hi
    rw [generate_getElem?_second R entropy i (by omega)]
    have hz : secondDraw R entropy / 2 ^ (63 - i) = 0 :=
      Nat.div_eq_of_lt (lt_of_lt_of_le hb (Nat.pow_le_pow_right (by norm_num) (by omega)))
    simp [hz]
  · intro h0 h1
    have e : (generateUniqueBinarySequence R entropy).1 = String.mk (List.replicate 128 '0') := by
      rw [generate_eq_append, h0, h1]
      decide
    refine ⟨e, ?_⟩
    rw [e]
    decide

/-- Witness for C6: an engine that hands out 0 and then 0 (`ka = kb = 0`). -/
theorem C6_leading_zero_padding_witness :
    Draws (scripted [0, 0]) () 0 0 ∧ 0 < 2 ^ 0 ∧
    (bitset64_to_string 0).length = 64 ∧ (bitset64_to_string 0).length = 64 ∧
    (∀ i, i < 64 - 0 →
      (generateUniqueBinarySequence (scripted [0, 0]) ()).1.data[i]? = some '0') ∧
    (∀ i, i < 64 - 0 →
      (generateUniqueBinarySequence (scripted [0, 0]) ()).1.data[64 + i]? = some '0') ∧
    (0 = 0 → 0 = 0 →
      (generateUniqueBinarySequence (scripted [0, 0]) ()).1 = String.mk (List.replicate 128 '0') ∧
      (generateUniqueBinarySequence (scripted [0, 0]) ()).1 ≠ "") :=
  ⟨by decide, by decide,
    C6_leading_zero_padding (scripted [0, 0]) () 0 0 0 0 (by decide) (by decide) (by decide)⟩

theorem main_stdout_data {Device Engine : Type} (R : StdRandom Device Engine)
    (entropy : Device) :
    (main R entropy).1.stdout.data =
      "Unique binary sequence: ".data ++
        ((generateUniqueBinarySequence R entropy).1.data ++ ['\n']) := by
  simp [main]

/-- C7: `main` writes exactly one line to standard output: the 24-character
label, the 128-character result of `generateUniqueBinarySequence`, and one
newline; 153 characters in total, of which characters 24..151 are all `'0'` or
`'1'`, character 152 is the only newline; the exit code is 0. -/
theorem C7_main_output {Device Engine : Type} (R : StdRandom Device Engine)
    (entropy : Device) :
    (main R entropy).1.stdout =
      "Unique binary sequence: " ++ (generateUniqueBinarySequence R entropy).1 ++ "\n" ∧
    "Unique binary sequence: ".length = 24 ∧
    (generateUniqueBinarySequence R entropy).1.length = 128 ∧
    (main R entropy).1.stdout.length = 153 ∧
    (∀ i, 24 ≤ i → i < 152 →
      ∃ c, (main R entropy).1.stdout.data[i]? = some c ∧ (c = '0' ∨ c = '1')) ∧
    (main R entropy).1.stdout.data[152]? = some '\n' ∧
    (main R entropy).1.stdout.data.count '\n' = 1 ∧
    (main R entropy).1.exitCode = 0 := by
  have hlabel : "Unique binary sequence: ".data.length = 24 := by decide
  have hgen := generate_data_length R entropy
  refine ⟨rfl, by decide, generate_length R entropy, ?_, ?_, ?_, ?_, rfl⟩
  · show (main R entropy).1.stdout.data.length = 153
    rw [main_stdout_data]
    simp [hgen]
  · intro i h1 h2
    have hi : i - 24 < (generateUniqueBinarySequence R entropy).1.data.length := by omega
    refine ⟨(generateUniqueBinarySequence R entropy).1.data[i - 24], ?_, ?_⟩
    · rw [main_stdout_data, List.getElem?_append_right (by omega), hlabel,
        List.getElem?_append_left hi, List.getElem?_eq_getElem hi]
    · exact generate_binary R entropy _ (List.getElem_mem hi)
  · rw [main_stdout_data, List.getElem?_append_right (by omega), hlabel,
      List.getElem?_append_right (by omega), hgen]
    rfl
  · rw [main_stdout_data, List.count_append, List.count_append]
    have h0 : List.count '\n' (generateUniqueBinarySequence R entropy).1.data = 0 := by
      rw [List.count_eq_zero]
      intro hmem
      rcases generate_binary R entropy _ hmem with h | h <;> exact absurd h (by decide)
    rw [h0]
    decide

/-- Witness for C7: character 24, the first after the label, of the line
printed for entropy word 5489. -/
theorem C7_main_output_witness :
    24 ≤ 24 ∧ 24 < 152 ∧
    ∃ c, (main stdlib (fun n => 5489 + n)).1.stdout.data[24]? = some c ∧ (c = '0' ∨ c = '1') :=
  ⟨by decide, by decide,
    (C7_main_output stdlib (fun n => 5489 + n)).2.2.2.2.1 24 (by decide) (by decide)⟩

/-- C8: seeding occurs once per call. The run reads the entropy source exactly
once (the entropy state afterwards is the one left by a single `device()`),
seeds one engine with that value, and takes both draws in order from that one
engine; so the returned string is a function of the seed alone, and a run
whose entropy read returns the same seed returns the same string. -/
theorem C8_seeded_once {Device Engine : Type} (R : StdRandom Device Engine)
    (entropy : Device) :
    (generateUniqueBinarySequence R entropy).2 = (R.device entropy).2 ∧
    (generateUniqueBinarySequence R entropy).1 =
      bitset64_to_string
        ((R.distribution (R.generator ((R.device entropy).1 % 2 ^ 32))).1 % 2 ^ 64) ++
      bitset64_to_string
        ((R.distribution
          (R.distribution (R.generator ((R.device entropy).1 % 2 ^ 32))).2).1 % 2 ^ 64) ∧
    (∃ f : Nat → String, ∀ e : Device,
      (generateUniqueBinarySequence R e).1 = f ((R.device e).1 % 2 ^ 32)) ∧
    (∀ other : Device, (R.device other).1 % 2 ^ 32 = (R.device entropy).1 % 2 ^ 32 →
      (generateUniqueBinarySequence R other).1 = (generateUniqueBinarySequence R entropy).1) := by
  refine ⟨generate_entropy R entropy, generate_eq_append R entropy, ?_, ?_⟩
  · refine ⟨fun s => bitset64_to_string ((R.distribution (R.generator s)).1 % 2 ^ 64) ++
      bitset64_to_string ((R.distribution (R.distribution (R.generator s)).2).1 % 2 ^ 64), ?_⟩
    intro e
    exact generate_eq_append R e
  · intro other h
    rw [generate_eq_append, generate_eq_append]
    simp only [firstDraw, secondDraw, h]

/-- Witness for C8: two different entropy streams whose first word is 5489
give the same string. -/
theorem C8_seeded_once_witness :
    (stdlib.device (fun _ => 5489)).1 % 2 ^ 32 = (stdlib.device (fun n => 5489 + n)).1 % 2 ^ 32 ∧
    (generateUniqueBinarySequence stdlib (fun _ => 5489)).1 =
      (generateUniqueBinarySequence stdlib (fun n => 5489 + n)).1 :=
  ⟨by decide, (C8_seeded_once stdlib (fun n => 5489 + n)).2.2.2 (fun _ => 5489) (by decide)⟩

/-- C9: uniqueness is not enforced, and the rendering loses nothing. Two runs
that draw `a`, `b` and `c`, `d` return the same string if and only if `a = c`
and `b = d`. -/
theorem C9_collide_iff_same_draws {D1 E1 D2 E2 : Type} (R1 : StdRandom D1 E1) (e1 : D1)
    (R2 : StdRandom D2 E2) (e2 : D2) (a b c d : Nat)
    (h1 : Draws R1 e1 a b) (h2 : Draws R2 e2 c d) :
    (generateUniqueBinarySequence R1 e1).1 = (generateUniqueBinarySequence R2 e2).1 ↔
      a = c ∧ b = d := by
  obtain ⟨ha, hb⟩ := h1
  obtain ⟨hc, hd⟩ := h2
  subst ha hb hc hd
  constructor
  · intro h
    have ht := congrArg (fun s : String => readBinary (s.data.take 64)) h
    have hdr := congrArg (fun s : String => readBinary (s.data.drop 64)) h
    simp only [generate_take, generate_drop, readBinary_bitsetChars, Option.some.injEq] at ht hdr
    rw [Nat.mod_eq_of_lt (firstDraw_lt R1 e1), Nat.mod_eq_of_lt (firstDraw_lt R2 e2)] at ht
    rw [Nat.mod_eq_of_lt (secondDraw_lt R1 e1), Nat.mod_eq_of_lt (secondDraw_lt R2 e2)] at hdr
    exact ⟨ht, hdr⟩
  · rintro ⟨h, k⟩
    rw [generate_eq_append, generate_eq_append, h, k]

/-- Witness for C9: two runs with different entropy streams that draw the same
two values. -/
theorem C9_collide_iff_same_draws_witness :
    Draws stdlib (fun n => 5489 + n) 14514284786278117030 4620546740167642908 ∧
    Draws stdlib (fun _ => 5489) 14514284786278117030 4620546740167642908 ∧
    ((generateUniqueBinarySequence stdlib (fun n => 5489 + n)).1 =
        (generateUniqueBinarySequence stdlib (fun _ => 5489)).1 ↔
      14514284786278117030 = 14514284786278117030 ∧
        4620546740167642908 = 4620546740167642908) :=
  ⟨by decide, by decide,
    C9_collide_iff_same_draws stdlib (fun n => 5489 + n) stdlib (fun _ => 5489) _ _ _ _
      (by decide) (by decide)⟩

/-- C10: the rendering covers the whole output space. For every string `s` of
128 characters, all `'0'` or `'1'`, there are 64-bit values `a` and `b` such
that every run that draws `a` and then `b` returns `s`; and a run drawing `a`
and then `b` exists. -/
theorem C10_rendering_onto (s : String) (hlen : s.length = 128)
    (hbin : ∀ c ∈ s.data, c = '0' ∨ c = '1') :
    ∃ a b : Nat, a < 2 ^ 64 ∧ b < 2 ^ 64 ∧
      (∀ (Device Engine : Type) (R : StdRandom Device Engine) (entropy : Device),
        Draws R entropy a b → (generateUniqueBinarySequence R entropy).1 = s) ∧
      Draws (scripted [a, b]) () a b ∧
      (generateUniqueBinarySequence (scripted [a, b]) ()).1 = s := by
  have hl : s.data.length = 128 := hlen
  obtain ⟨a, ha, hra⟩ := bitsetChars_surjective 64 (s.data.take 64)
    (by rw [List.length_take, hl]; rfl) (fun c hc => hbin c (List.mem_of_mem_take hc))
  obtain ⟨b, hb, hrb⟩ := bitsetChars_surjective 64 (s.data.drop 64)
    (by rw [List.length_drop, hl]) (fun c hc => hbin c (List.mem_of_mem_drop hc))
  have key : ∀ (Device Engine : Type) (R : StdRandom Device Engine) (entropy : Device),
      Draws R entropy a b → (generateUniqueBinarySequence R entropy).1 = s := by
    intro Device Engine R entropy h
    apply String.ext
    rw [generate_data, h.1, h.2, hra, hrb, List.take_append_drop]
  exact ⟨a, b, ha, hb, key, scripted_draws a b ha hb,
    key _ _ _ _ (scripted_draws a b ha hb)⟩

/-- Witness for C10: the string for entropy word 5489 read back, with the all
`'1'` group in its place. -/
theorem C10_rendering_onto_witness :
    ("11001001011011010001100100011100111101101111011010101110101001101111111111111111111111111111111111111111111111111111111111111111".length = 128) ∧
    ∃ a b : Nat, a < 2 ^ 64 ∧ b < 2 ^ 64 ∧
      (∀ (Device Engine : Type) (R : StdRandom Device Engine) (entropy : Device),
        Draws R entropy a b → (generateUniqueBinarySequence R entropy).1 =
          "11001001011011010001100100011100111101101111011010101110101001101111111111111111111111111111111111111111111111111111111111111111") ∧
      Draws (scripted [a, b]) () a b ∧
      (generateUniqueBinarySequence (scripted [a, b]) ()).1 =
        "11001001011011010001100100011100111101101111011010101110101001101111111111111111111111111111111111111111111111111111111111111111" :=
  ⟨by decide, C10_rendering_onto _ (by decide) (by decide)⟩

end CppGenerator
